import Mathlib

/-!
Verification of the SAADC driver (`nrf-hal-common/src/saadc.rs`).

The driver is embedded shallowly:

* The PAC register-value enums (`Resolution`, `Oversample`, `Reference`,
  `Gain`, `Resistor`, `Time`, and the positive-input-select values) become
  Lean inductives with the same variant names.
* Every hardware interaction of an operation is recorded in a trace of
  events (`Ev`): register writes, register reads (with the value the
  hardware returned), compiler fences, and reads of the DMA sample buffer
  by software.  Values read from hardware event registers are supplied by
  an oracle `rv : Nat → Nat` giving the value returned by the k-th read of
  that register inside the operation.
* The unbounded busy-wait loops of the source are modelled with explicit
  fuel; exhausting the fuel returns `none`, which models non-termination.
  The bounded loop of `sample_blocking` (counter bail-out at `count >
  10_000`, i.e. after 10001 reads that all returned 0) is modelled by the
  same loop with fuel 10001.
* The two compile-time chip-variant conditions that matter to the channel
  mapping - `cfg(not(feature = "9160"))` and `cfg(any(feature = "52833",
  feature = "52840"))` - are two booleans `is9160` and `hasVddhDiv5`.
-/

namespace NrfSaadc

/-- Values of the RESOLUTION register (PAC `VAL_A`). -/
inductive Resolution where
  | _8BIT
  | _10BIT
  | _12BIT
  | _14BIT
  deriving DecidableEq, Repr

/-- Values of the OVERSAMPLE register (PAC `OVERSAMPLE_A`). -/
inductive Oversample where
  | BYPASS
  | OVER2X
  | OVER4X
  | OVER8X
  | OVER16X
  | OVER32X
  | OVER64X
  | OVER128X
  | OVER256X
  deriving DecidableEq, Repr

/-- Values of the per-channel CONFIG.REFSEL field (PAC `REFSEL_A`). -/
inductive Reference where
  | INTERNAL
  | VDD1_4
  deriving DecidableEq, Repr

/-- Values of the per-channel CONFIG.GAIN field (PAC `GAIN_A`). -/
inductive Gain where
  | GAIN1_6
  | GAIN1_5
  | GAIN1_4
  | GAIN1_3
  | GAIN1_2
  | GAIN1
  | GAIN2
  | GAIN4
  deriving DecidableEq, Repr

/-- Values of the per-channel CONFIG.RESP field (PAC `RESP_A`). -/
inductive Resistor where
  | BYPASS
  | PULLDOWN
  | PULLUP
  | VDD1_2
  deriving DecidableEq, Repr

/-- Values of the per-channel CONFIG.TACQ field (PAC `TACQ_A`), acquisition time in µs. -/
inductive Time where
  | _3US
  | _5US
  | _10US
  | _15US
  | _20US
  | _40US
  deriving DecidableEq, Repr

/-- Mirror of `SaadcConfig` from the source: the user-facing configuration record. -/
structure SaadcConfig where
  resolution : Resolution
  oversample : Oversample
  reference : Reference
  gain : Gain
  resistor : Resistor
  time : Time
  deriving DecidableEq, Repr

/-- Embeds `impl Default for SaadcConfig` (saadc.rs lines 432-444). -/
def SaadcConfig.default : SaadcConfig where
  resolution := Resolution._14BIT
  oversample := Oversample.OVER8X
  reference := Reference.VDD1_4
  gain := Gain.GAIN1_4
  resistor := Resistor.BYPASS
  time := Time._20US

/-- Positive-input-select values (register `CH[n].PSELP`) written by the driver. -/
inductive Pselp where
  | nc
  | analogInput (i : Nat)
  | vdd
  | vddhdiv5
  deriving DecidableEq, Repr

/-- Decidable equality for `Except`, needed to evaluate the embedded
fallible operations on concrete inputs. -/
instance {E A : Type} [DecidableEq E] [DecidableEq A] : DecidableEq (Except E A) := fun x y =>
  match x, y with
  | Except.error a, Except.error b =>
    if h : a = b then Decidable.isTrue (by rw [h])
    else Decidable.isFalse (by intro hc; cases hc; exact h rfl)
  | Except.ok a, Except.ok b =>
    if h : a = b then Decidable.isTrue (by rw [h])
    else Decidable.isFalse (by intro hc; cases hc; exact h rfl)
  | Except.error _, Except.ok _ => Decidable.isFalse (by intro hc; cases hc)
  | Except.ok _, Except.error _ => Decidable.isFalse (by intro hc; cases hc)

/-- The positive-input-select mapping of `SaadcTask::new` (saadc.rs lines
104-120): a `match` on the channel code whose fall-through arm is
`panic!()`, modelled as `none`.  The `8` arm exists only under
`cfg(not(feature = "9160"))`, and the `13` arm only under
`cfg(any(feature = "52833", feature = "52840"))`. -/
def pselpForTask (is9160 hasVddhDiv5 : Bool) (ch : Nat) : Option Pselp :=
  match ch with
  | 0 => some (Pselp.analogInput 0)
  | 1 => some (Pselp.analogInput 1)
  | 2 => some (Pselp.analogInput 2)
  | 3 => some (Pselp.analogInput 3)
  | 4 => some (Pselp.analogInput 4)
  | 5 => some (Pselp.analogInput 5)
  | 6 => some (Pselp.analogInput 6)
  | 7 => some (Pselp.analogInput 7)
  | 8 => if is9160 then none else some Pselp.vdd
  | 13 => if hasVddhDiv5 then some Pselp.vddhdiv5 else none
  | _ => none

/-- The positive-input-select mapping of `Saadc::read_channel` (saadc.rs
lines 332-348): the same `match`, but the fall-through arm is
`return Err(())` instead of a panic. -/
def pselpForRead (is9160 hasVddhDiv5 : Bool) (ch : Nat) : Except Unit Pselp :=
  match ch with
  | 0 => Except.ok (Pselp.analogInput 0)
  | 1 => Except.ok (Pselp.analogInput 1)
  | 2 => Except.ok (Pselp.analogInput 2)
  | 3 => Except.ok (Pselp.analogInput 3)
  | 4 => Except.ok (Pselp.analogInput 4)
  | 5 => Except.ok (Pselp.analogInput 5)
  | 6 => Except.ok (Pselp.analogInput 6)
  | 7 => Except.ok (Pselp.analogInput 7)
  | 8 => if is9160 then Except.error () else Except.ok Pselp.vdd
  | 13 => if hasVddhDiv5 then Except.ok Pselp.vddhdiv5 else Except.error ()
  | _ => Except.error ()

/-- The domain of the channel-code mapping for a given chip variant:
codes 0-7 always, 8 unless the variant is the 9160, 13 only on variants
with the VDDH/5 divider (52833/52840). -/
def chDomain (is9160 hasVddhDiv5 : Bool) (ch : Nat) : Bool :=
  ch ≤ 7 || (ch == 8 && !is9160) || (ch == 13 && hasVddhDiv5)

/-- The channel codes producible by `Channel` implementations provided in
the crate for a given variant: the eight analog pins give 0-7
(`channel_mappings!`, saadc.rs lines 482-504), `InternalVdd` gives 8 under
`cfg(not(feature = "9160"))` (lines 515-521), and `InternalVddHdiv5` gives
13 under `cfg(any(feature = "52833", feature = "52840"))` (lines 536-542). -/
def crateChannelCodes (is9160 hasVddhDiv5 : Bool) : List Nat :=
  [0, 1, 2, 3, 4, 5, 6, 7]
    ++ (if is9160 then [] else [8])
    ++ (if hasVddhDiv5 then [13] else [])

/-- The SAADC registers the driver touches (beyond the per-channel config
and input-select registers, which get dedicated event constructors so the
written enum values are kept). -/
inductive Reg where
  | events_end
  | events_calibratedone
  | tasks_start
  | tasks_sample
  | tasks_calibrateoffset
  | result_ptr
  | result_maxcnt
  | result_amount
  | enable
  | inten
  | intenset
  | intenclr
  | samplerate
  | ch_pseln (idx : Nat)
  deriving DecidableEq, Repr

/-- One observable hardware interaction.  `wreg r v` is a register write
(a `reset()` is `wreg r 0`; addresses written to `result_ptr` are not
modelled, the write is recorded with value 0); `rreg r v` is a register
read that returned `v`; `wpselp`/`wchconfig`/`wresolution`/`woversample`
are writes of enum-typed register values; `fence` is `compiler_fence
(SeqCst)`; `bufRead` is the point where software reads the DMA sample
buffer to copy it out. -/
inductive Ev where
  | wreg (r : Reg) (v : Nat)
  | rreg (r : Reg) (v : Nat)
  | wpselp (idx : Nat) (p : Pselp)
  | wchconfig (idx : Nat) (reference : Reference) (gain : Gain) (time : Time) (resistor : Resistor)
  | wresolution (r : Resolution)
  | woversample (o : Oversample)
  | fence
  | bufRead
  deriving DecidableEq, Repr

def Ev.isBufRead : Ev → Bool
  | Ev.bufRead => true
  | _ => false

/-- A read of `EVENTS_END` that observed the event set (nonzero). -/
def Ev.isEndSetRead : Ev → Bool
  | Ev.rreg Reg.events_end v => decide (v ≠ 0)
  | _ => false

def Ev.isEndRead : Ev → Bool
  | Ev.rreg Reg.events_end _ => true
  | _ => false

def Ev.isCalDoneRead : Ev → Bool
  | Ev.rreg Reg.events_calibratedone _ => true
  | _ => false

def Ev.isAmountRead : Ev → Bool
  | Ev.rreg Reg.result_amount _ => true
  | _ => false

/-- A write of `TASKS_START` or `TASKS_SAMPLE`: triggering a conversion. -/
def Ev.isTrigger : Ev → Bool
  | Ev.wreg Reg.tasks_start _ => true
  | Ev.wreg Reg.tasks_sample _ => true
  | _ => false

def Ev.isPtrWrite : Ev → Bool
  | Ev.wreg Reg.result_ptr _ => true
  | _ => false

def Ev.isMaxcntWrite : Ev → Bool
  | Ev.wreg Reg.result_maxcnt _ => true
  | _ => false

def Ev.isRead : Ev → Bool
  | Ev.rreg _ _ => true
  | _ => false

/-- A `while reg.read().bits() == 0` polling loop on register `r`.  The
oracle `rv k` is the value the k-th read returns.  Fuel bounds the number
of reads: the result is the trace of reads performed plus `some k` when
the k-th read (0-based) observed a nonzero value, `none` when all `fuel`
reads returned 0.  An unbounded source loop is recovered by quantifying
over the fuel; the `count > 10_000` bail-out of `sample_blocking`
(10001 zero reads, then give up without reading again) is exactly this
loop with fuel 10001. -/
def pollLoop (r : Reg) (rv : Nat → Nat) : Nat → Nat → List Ev × Option Nat
  | _, 0 => ([], none)
  | i, fuel + 1 =>
    if rv i = 0 then
      let rest := pollLoop r rv (i + 1) fuel
      (Ev.rreg r (rv i) :: rest.1, rest.2)
    else
      ([Ev.rreg r (rv i)], some i)

/-- The copy-out loop shared by `read_buffer`, `complete_sample` and
`sample_blocking`: `for (idx, val) in buffer.iter().enumerate() {
res[idx] = callback(*val) }`, walking the buffer and overwriting the
index-`idx` slot of `res`. -/
def fillLoop {T : Type} (callback : Nat → T) : List Nat → Nat → List T → List T
  | [], _, res => res
  | val :: rest, idx, res => fillLoop callback rest (idx + 1) (res.set idx (callback val))

/-- Embeds `SaadcTask::read_buffer` (saadc.rs lines 192-201): start from
`[T::default(); CHANNELS]` and overwrite every slot with
`callback(buffer[idx])`. -/
def read_buffer {T : Type} (dflt : T) (callback : Nat → T) (buffer : List Nat) : List T :=
  fillLoop callback buffer 0 (List.replicate buffer.length dflt)

/-- Embeds `SaadcTask::start_sample` (saadc.rs lines 145-167): reset END, program
the DMA pointer and maxcnt, enable, fence, trigger START and SAMPLE,
enable the END interrupt. -/
def start_sample (buffer : List Nat) : List Ev :=
  [Ev.wreg Reg.events_end 0,
   Ev.wreg Reg.result_ptr 0,
   Ev.wreg Reg.result_maxcnt buffer.length,
   Ev.wreg Reg.enable 1,
   Ev.fence,
   Ev.wreg Reg.tasks_start 1,
   Ev.wreg Reg.tasks_sample 1,
   Ev.wreg Reg.inten 1,
   Ev.wreg Reg.intenset 1]

/-- Embeds `SaadcTask::prepare_sample` (saadc.rs lines 170-189): like
`start_sample` but triggering only START (and no interrupt-enable
writes). -/
def prepare_sample (buffer : List Nat) : List Ev :=
  [Ev.wreg Reg.events_end 0,
   Ev.wreg Reg.result_ptr 0,
   Ev.wreg Reg.result_maxcnt buffer.length,
   Ev.wreg Reg.enable 1,
   Ev.fence,
   Ev.wreg Reg.tasks_start 1]

/-- Embeds `SaadcTask::complete_sample` (saadc.rs lines 206-231): fence, trigger
START and SAMPLE, reset END (the `while events_end == 0` wait of the
source is commented out, so no read of END happens), clear the END
interrupt, then copy the buffer out through the callback. -/
def complete_sample {T : Type} (dflt : T) (callback : Nat → T) (buffer : List Nat) :
    List Ev × List T :=
  ([Ev.fence,
    Ev.wreg Reg.tasks_start 1,
    Ev.wreg Reg.tasks_sample 1,
    Ev.wreg Reg.events_end 0,
    Ev.wreg Reg.intenclr 1,
    Ev.bufRead],
   read_buffer dflt callback buffer)

/-- Embeds `SaadcTask::sample_blocking` (saadc.rs lines 233-282): reset END,
program pointer/maxcnt, enable, fence, trigger START and SAMPLE, disable
the END interrupt, fence, trigger START and SAMPLE again, then poll END
with the counter bail-out (`count > 10_000` ⇒ `return None` - 10001 zero
reads); on success reset END, fence, and copy the buffer out. -/
def sample_blocking {T : Type} (dflt : T) (callback : Nat → T) (rv : Nat → Nat)
    (buffer : List Nat) : List Ev × Option (List T) :=
  let pre : List Ev :=
    [Ev.wreg Reg.events_end 0,
     Ev.wreg Reg.result_ptr 0,
     Ev.wreg Reg.result_maxcnt buffer.length,
     Ev.wreg Reg.enable 1,
     Ev.fence,
     Ev.wreg Reg.tasks_start 1,
     Ev.wreg Reg.tasks_sample 1,
     Ev.wreg Reg.inten 0,
     Ev.wreg Reg.intenset 0,
     Ev.fence,
     Ev.wreg Reg.tasks_start 1,
     Ev.wreg Reg.tasks_sample 1]
  match pollLoop Reg.events_end rv 0 10001 with
  | (ltr, none) => (pre ++ ltr, none)
  | (ltr, some _) =>
      (pre ++ ltr ++ [Ev.wreg Reg.events_end 0, Ev.fence, Ev.bufRead],
       some (read_buffer dflt callback buffer))

/-- The per-channel configuration loop of `SaadcTask::new` (saadc.rs lines
92-122): for each `(idx, ch)`, write `ch[idx].config`, match the channel
code into `ch[idx].pselp` (`panic!()` - here `none` - on an unhandled
code), and set `ch[idx].pseln` to not-connected. -/
def taskChanSetup (is9160 hasVddhDiv5 : Bool) (cfg : SaadcConfig) :
    List Nat → Nat → Option (List Ev)
  | [], _ => some []
  | ch :: rest, idx =>
    match pselpForTask is9160 hasVddhDiv5 ch with
    | none => none
    | some p =>
      match taskChanSetup is9160 hasVddhDiv5 cfg rest (idx + 1) with
      | none => none
      | some evs =>
          some (Ev.wchconfig idx cfg.reference cfg.gain cfg.time cfg.resistor
                  :: Ev.wpselp idx p
                  :: Ev.wreg (Reg.ch_pseln idx) 0
                  :: evs)

/-- Embeds `SaadcTask::new` (saadc.rs lines 71-141): write resolution,
oversample, samplerate = task mode, run the per-channel setup loop,
enable, reset CALIBRATEDONE and trigger CALIBRATEOFFSET - the
`while events_calibratedone == 0` wait is commented out in the source, so
the constructor performs no read of the event - then write INTEN/INTENSET
and return the engine (its buffer).  `none` models the `panic!()` on an
unhandled channel code. -/
def SaadcTaskNew (is9160 hasVddhDiv5 : Bool) (cfg : SaadcConfig) (channels : List Nat)
    (buffer : List Nat) : Option (List Ev × List Nat) :=
  match taskChanSetup is9160 hasVddhDiv5 cfg channels 0 with
  | none => none
  | some chanEvs =>
      some ([Ev.wresolution cfg.resolution,
             Ev.woversample cfg.oversample,
             Ev.wreg Reg.samplerate 0]
              ++ chanEvs
              ++ [Ev.wreg Reg.enable 1,
                  Ev.wreg Reg.events_calibratedone 0,
                  Ev.wreg Reg.tasks_calibrateoffset 1,
                  Ev.wreg Reg.inten 1,
                  Ev.wreg Reg.intenset 1],
            buffer)

/-- Embeds `Saadc::new` (saadc.rs lines 286-321): write resolution, oversample,
samplerate = task mode, channel-0 config and pseln = not-connected, reset
CALIBRATEDONE, trigger CALIBRATEOFFSET, then busy-wait (unbounded - here:
any fuel) until a read of CALIBRATEDONE returns nonzero.  `none` models
the constructor not having returned yet after `fuel` reads. -/
def SaadcNew (cfg : SaadcConfig) (rv : Nat → Nat) (fuel : Nat) : Option (List Ev) :=
  match pollLoop Reg.events_calibratedone rv 0 fuel with
  | (_, none) => none
  | (ltr, some _) =>
      some ([Ev.wresolution cfg.resolution,
             Ev.woversample cfg.oversample,
             Ev.wreg Reg.samplerate 0,
             Ev.wchconfig 0 cfg.reference cfg.gain cfg.time cfg.resistor,
             Ev.wreg (Reg.ch_pseln 0) 0,
             Ev.wreg Reg.events_calibratedone 0,
             Ev.wreg Reg.tasks_calibrateoffset 1]
              ++ ltr)

/-- Embeds `Saadc::read_channel` (saadc.rs lines 331-379): match the channel code
into `ch[0].pselp` (`return Err(())` on an unhandled code, with no
register touched), program the DMA pointer to a single local `val` and
maxcnt to 1, fence, trigger START and SAMPLE, busy-wait (unbounded - any
fuel) for END, reset END, read `RESULT.AMOUNT` (the oracle value
`amount`) and fail unless it is 1, fence, and return the value `val` the
hardware wrote.  The outer `none` models the wait not having finished
within `fuel` reads. -/
def read_channel (is9160 hasVddhDiv5 : Bool) (ch : Nat) (rv : Nat → Nat) (amount : Nat)
    (val : Int) (fuel : Nat) : Option (List Ev × Except Unit Int) :=
  match pselpForRead is9160 hasVddhDiv5 ch with
  | Except.error _ => some ([], Except.error ())
  | Except.ok p =>
    match pollLoop Reg.events_end rv 0 fuel with
    | (_, none) => none
    | (ltr, some _) =>
      let pre : List Ev :=
        [Ev.wpselp 0 p,
         Ev.wreg Reg.result_ptr 0,
         Ev.wreg Reg.result_maxcnt 1,
         Ev.fence,
         Ev.wreg Reg.tasks_start 1,
         Ev.wreg Reg.tasks_sample 1]
      if amount = 1 then
        some (pre ++ ltr
                ++ [Ev.wreg Reg.events_end 0, Ev.rreg Reg.result_amount amount,
                    Ev.fence, Ev.bufRead],
              Except.ok val)
      else
        some (pre ++ ltr
                ++ [Ev.wreg Reg.events_end 0, Ev.rreg Reg.result_amount amount],
              Except.error ())

/-- Walks a trace carrying a flag `seen` = "a read of `EVENTS_END` has
already observed the event set".  The check fails (returns `false`) if a
`bufRead` occurs while `seen` is still `false`. -/
def copyChk : Bool → List Ev → Bool
  | _, [] => true
  | seen, e :: tr =>
    if e.isBufRead then seen && copyChk seen tr
    else copyChk (seen || e.isEndSetRead) tr

/-- Every read of the sample buffer in the trace happens after some read
of `EVENTS_END` observed the event set. -/
def copyGuarded (tr : List Ev) : Prop :=
  copyChk false tr = true

/-- The trace splits at a fence such that the DMA result-pointer write and
the maxcnt write happen before the fence, no conversion trigger happens
before the fence, and some conversion trigger happens after it. -/
def fencedSetup (tr : List Ev) : Prop :=
  ∃ a b, tr = a ++ Ev.fence :: b ∧
    a.any Ev.isPtrWrite = true ∧
    a.any Ev.isMaxcntWrite = true ∧
    (∀ e ∈ a, e.isTrigger = false) ∧
    (∃ e ∈ b, e.isTrigger = true)

/-- The hardware interactions claim C5 requires of a successful one-shot
read: the channel is selected, the DMA target is programmed (pointer and
maxcnt = 1), both tasks are triggered, END is observed set, END is
cleared before returning, and the exactly-one-transfer check reads
`RESULT.AMOUNT` = 1. -/
def oneShotObligations (p : Pselp) (tr : List Ev) : Prop :=
  Ev.wpselp 0 p ∈ tr ∧
  Ev.wreg Reg.result_ptr 0 ∈ tr ∧
  Ev.wreg Reg.result_maxcnt 1 ∈ tr ∧
  Ev.wreg Reg.tasks_start 1 ∈ tr ∧
  Ev.wreg Reg.tasks_sample 1 ∈ tr ∧
  (∃ v, v ≠ 0 ∧ Ev.rreg Reg.events_end v ∈ tr) ∧
  Ev.wreg Reg.events_end 0 ∈ tr ∧
  Ev.rreg Reg.result_amount 1 ∈ tr

/-! Lemmas about the polling loop. -/

theorem pollLoop_success (r : Reg) (rv : Nat → Nat) :
    ∀ fuel i tr n, pollLoop r rv i fuel = (tr, some n) →
      rv n ≠ 0 ∧ i ≤ n ∧ n < i + fuel ∧ (∀ j, i ≤ j → j < n → rv j = 0) ∧
        Ev.rreg r (rv n) ∈ tr := by
  intro fuel
  induction fuel with
  | zero => intro i tr n h; simp [pollLoop] at h
  | succ f ih =>
    intro i tr n h
    by_cases h0 : rv i = 0
    · simp only [pollLoop, h0, if_pos] at h
      rcases hp : pollLoop r rv (i + 1) f with ⟨tr', res'⟩
      rw [hp] at h
      cases h
      obtain ⟨hne, hle, hlt, hzero, hmem⟩ := ih (i + 1) tr' n hp
      refine ⟨hne, by omega, by omega, ?_, List.mem_cons_of_mem _ hmem⟩
      intro j hij hjn
      rcases Nat.eq_or_lt_of_le hij with rfl | hij'
      · exact h0
      · exact hzero j hij' hjn
    · simp only [pollLoop, h0, if_neg, not_false_iff] at h
      cases h
      exact ⟨h0, Nat.le_refl _, by omega, fun j hij hji => absurd hij (by omega),
        List.mem_singleton.mpr rfl⟩

theorem pollLoop_trace_reads (r : Reg) (rv : Nat → Nat) :
    ∀ fuel i, ∀ e ∈ (pollLoop r rv i fuel).1, ∃ j, e = Ev.rreg r (rv j) := by
  intro fuel
  induction fuel with
  | zero => intro i e he; simp [pollLoop] at he
  | succ f ih =>
    intro i e he
    by_cases h0 : rv i = 0
    · simp only [pollLoop, h0, if_pos] at he
      rcases List.mem_cons.mp he with rfl | he'
      · exact ⟨i, by rw [h0]⟩
      · exact ih (i + 1) e he'
    · simp only [pollLoop, h0, if_neg, not_false_iff, List.mem_singleton] at he
      exact ⟨i, he⟩

theorem pollLoop_timeout (r : Reg) (rv : Nat → Nat) :
    ∀ fuel i tr, pollLoop r rv i fuel = (tr, none) →
      ∀ j, i ≤ j → j < i + fuel → rv j = 0 := by
  intro fuel
  induction fuel with
  | zero => intro i tr _ j hij hj; omega
  | succ f ih =>
    intro i tr h j hij hj
    by_cases h0 : rv i = 0
    · simp only [pollLoop, h0, if_pos] at h
      rcases hp : pollLoop r rv (i + 1) f with ⟨tr', res'⟩
      rw [hp] at h
      cases h
      rcases Nat.eq_or_lt_of_le hij with rfl | hij'
      · exact h0
      · exact ih (i + 1) tr' hp j hij' (by omega)
    · simp [pollLoop, h0] at h


theorem pollLoop_timeout_of_allzero (r : Reg) (rv : Nat → Nat) :
    ∀ fuel i, (∀ j, i ≤ j → j < i + fuel → rv j = 0) →
      pollLoop r rv i fuel = ((pollLoop r rv i fuel).1, none) := by
  intro fuel
  induction fuel with
  | zero => intro i _; rfl
  | succ f ih =>
    intro i hall
    have h0 : rv i = 0 := hall i (Nat.le_refl _) (by omega)
    have := ih (i + 1) (fun j h1 h2 => hall j (by omega) (by omega))
    simp only [pollLoop, h0, if_pos]
    rw [this]

theorem pollLoop_success_of_first (r : Reg) (rv : Nat → Nat) (n : Nat)
    (hn : rv n ≠ 0) :
    ∀ fuel i, i ≤ n → (∀ j, i ≤ j → j < n → rv j = 0) → n < i + fuel →
      (pollLoop r rv i fuel).2 = some n := by
  intro fuel
  induction fuel with
  | zero => intro i _ _ h; omega
  | succ f ih =>
    intro i hin hzero hlt
    rcases Nat.eq_or_lt_of_le hin with rfl | hin'
    · simp [pollLoop, hn]
    · have h0 : rv i = 0 := hzero i (Nat.le_refl _) hin'
      simp only [pollLoop, h0, if_pos]
      exact ih (i + 1) hin' (fun j h1 h2 => hzero j (by omega) h2) (by omega)

/-! Lemmas about the buffer copy-out loop. -/

theorem fillLoop_length {T : Type} (callback : Nat → T) :
    ∀ (b : List Nat) (idx : Nat) (res : List T),
      (fillLoop callback b idx res).length = res.length := by
  intro b
  induction b with
  | nil => intro idx res; rfl
  | cons v rest ih => intro idx res; simp [fillLoop, ih]

theorem fillLoop_getElem?_lt {T : Type} (callback : Nat → T) :
    ∀ (b : List Nat) (idx : Nat) (res : List T) (j : Nat), j < idx →
      (fillLoop callback b idx res)[j]? = res[j]? := by
  intro b
  induction b with
  | nil => intro idx res j _; rfl
  | cons v rest ih =>
    intro idx res j hj
    simp only [fillLoop]
    rw [ih (idx + 1) _ j (by omega), List.getElem?_set_ne (by omega)]

theorem fillLoop_getElem?_ge {T : Type} (callback : Nat → T) :
    ∀ (b : List Nat) (res : List T) (idx k : Nat), k < b.length →
      idx + b.length ≤ res.length →
      (fillLoop callback b idx res)[idx + k]? = some (callback (b.getD k 0)) := by
  intro b
  induction b with
  | nil => intro res idx k hk _; simp at hk
  | cons v rest ih =>
    intro res idx k hk hlen
    match k with
    | 0 =>
      simp only [fillLoop, Nat.add_zero]
      rw [fillLoop_getElem?_lt callback rest (idx + 1) _ idx (by omega)]
      rw [List.getElem?_set_eq_of_lt _ (by simp at hlen ⊢; omega)]
      rfl
    | k + 1 =>
      simp only [fillLoop]
      have harith : idx + (k + 1) = (idx + 1) + k := by omega
      rw [harith, ih (res.set idx (callback v)) (idx + 1) k
        (by simpa using Nat.lt_of_succ_lt_succ hk) (by simp at hlen ⊢; omega)]
      rfl

theorem read_buffer_length {T : Type} (dflt : T) (callback : Nat → T) (b : List Nat) :
    (read_buffer dflt callback b).length = b.length := by
  simp [read_buffer, fillLoop_length]

theorem read_buffer_getElem? {T : Type} (dflt : T) (callback : Nat → T) (b : List Nat)
    (k : Nat) (hk : k < b.length) :
    (read_buffer dflt callback b)[k]? = some (callback (b.getD k 0)) := by
  have := fillLoop_getElem?_ge callback b (List.replicate b.length dflt) 0 k hk (by simp)
  simpa [read_buffer] using this

theorem read_buffer_eq_map {T : Type} (dflt : T) (callback : Nat → T) (b : List Nat) :
    read_buffer dflt callback b = b.map callback := by
  apply List.ext_getElem?
  intro i
  by_cases hi : i < b.length
  · rw [read_buffer_getElem? dflt callback b i hi, List.getElem?_map,
      List.getElem?_eq_getElem hi, List.getD_eq_getElem _ _ hi]
    rfl
  · rw [List.getElem?_eq_none (by rw [read_buffer_length]; omega),
      List.getElem?_eq_none (by rw [List.length_map]; omega)]

/-! Small evaluation lemmas for the event predicates. -/

@[simp] theorem isBufRead_wreg (r : Reg) (v : Nat) : (Ev.wreg r v).isBufRead = false := rfl

@[simp] theorem isBufRead_rreg (r : Reg) (v : Nat) : (Ev.rreg r v).isBufRead = false := rfl

@[simp] theorem isBufRead_fence : Ev.fence.isBufRead = false := rfl

@[simp] theorem isBufRead_wpselp (i : Nat) (p : Pselp) : (Ev.wpselp i p).isBufRead = false := rfl

@[simp] theorem isBufRead_bufRead : Ev.bufRead.isBufRead = true := rfl

@[simp] theorem isEndSetRead_wreg (r : Reg) (v : Nat) :
    (Ev.wreg r v).isEndSetRead = false := rfl

@[simp] theorem isEndSetRead_fence : Ev.fence.isEndSetRead = false := rfl

@[simp] theorem isEndSetRead_bufRead : Ev.bufRead.isEndSetRead = false := rfl

@[simp] theorem isEndSetRead_wpselp (i : Nat) (p : Pselp) :
    (Ev.wpselp i p).isEndSetRead = false := rfl

@[simp] theorem isEndSetRead_rreg_end (v : Nat) :
    (Ev.rreg Reg.events_end v).isEndSetRead = decide (v ≠ 0) := rfl

/-! Completion-before-copy checker (claim C1). -/

theorem Ev.isEndSetRead_eq_false_of_isBufRead {e : Ev} (h : e.isBufRead = true) :
    e.isEndSetRead = false := by
  cases e <;> simp_all [Ev.isBufRead, Ev.isEndSetRead]

theorem copyChk_append (s : Bool) (a b : List Ev) :
    copyChk s (a ++ b) = (copyChk s a && copyChk (s || a.any Ev.isEndSetRead) b) := by
  induction a generalizing s with
  | nil => simp [copyChk]
  | cons e a ih =>
    by_cases hb : e.isBufRead
    · have he := Ev.isEndSetRead_eq_false_of_isBufRead hb
      simp [copyChk, hb, ih, he, Bool.and_assoc]
    · have h1 : copyChk s ((e :: a) ++ b) = copyChk (s || e.isEndSetRead) (a ++ b) := by
        simp [copyChk, hb]
      have h2 : copyChk s (e :: a) = copyChk (s || e.isEndSetRead) a := by
        simp [copyChk, hb]
      rw [h1, h2, ih, List.any_cons, Bool.or_assoc]

theorem copyChk_of_no_bufRead (s : Bool) (tr : List Ev)
    (h : ∀ e ∈ tr, e.isBufRead = false) : copyChk s tr = true := by
  induction tr generalizing s with
  | nil => rfl
  | cons e tr ih =>
    have he : e.isBufRead = false := h e (List.mem_cons_self e tr)
    simp only [copyChk, he, Bool.false_eq_true, if_neg, not_false_iff]
    exact ih _ (fun x hx => h x (List.mem_cons_of_mem e hx))

/-! Pointer-then-fence-then-trigger predicate (claim C7). -/

/-! Claim theorems. -/

/-- Claim C9 (confirmed): the default `Configuration` equals the
documented defaults exactly: resolution = 14-bit, oversample = 8x,
reference = internal VDD/4, gain = 1/4, resistor = bypass, acquisition
time = 20 µs. -/
theorem C9_default_config :
    SaadcConfig.default.resolution = Resolution._14BIT ∧
    SaadcConfig.default.oversample = Oversample.OVER8X ∧
    SaadcConfig.default.reference = Reference.VDD1_4 ∧
    SaadcConfig.default.gain = Gain.GAIN1_4 ∧
    SaadcConfig.default.resistor = Resistor.BYPASS ∧
    SaadcConfig.default.time = Time._20US :=
  ⟨rfl, rfl, rfl, rfl, rfl, rfl⟩

/-- Claim C8 (confirmed): for every buffer of N raw codes and every
mapping function, the copy-out (`read_buffer`, also used verbatim by
`complete_sample` and by the success path of `sample_blocking`) yields
exactly N elements, the element at index i being the function applied to
the raw code at index i. -/
theorem C8_map_per_element {T : Type} (dflt : T) (callback : Nat → T) (buffer : List Nat) :
    (read_buffer dflt callback buffer).length = buffer.length ∧
    (∀ i, i < buffer.length →
      (read_buffer dflt callback buffer)[i]? = some (callback (buffer.getD i 0))) ∧
    (complete_sample dflt callback buffer).2 = read_buffer dflt callback buffer ∧
    (∀ rv : Nat → Nat, rv 0 ≠ 0 →
      (sample_blocking dflt callback rv buffer).2 = some (read_buffer dflt callback buffer)) := by
  refine ⟨read_buffer_length dflt callback buffer,
    fun i hi => read_buffer_getElem? dflt callback buffer i hi, rfl, ?_⟩
  intro rv hrv
  have h10001 : (10001 : Nat) = 10000 + 1 := rfl
  have hpoll : pollLoop Reg.events_end rv 0 10001 = ([Ev.rreg Reg.events_end (rv 0)], some 0) := by
    rw [h10001]
    simp [pollLoop, hrv]
  simp [sample_blocking, hpoll]

/-- Witness for C8 at a concrete input: doubling `[100, 200, 300]` puts
`400` at index 1, and a `sample_blocking` run whose first END poll
observes the event returns the mapped buffer. -/
theorem C8_map_per_element_witness :
    (read_buffer (0 : Nat) (fun x => x * 2) [100, 200, 300])[1]? = some 400 ∧
    (sample_blocking (0 : Nat) (fun x => x * 2) (fun _ => 1) [100, 200, 300]).2 =
      some (read_buffer (0 : Nat) (fun x => x * 2) [100, 200, 300]) :=
  ⟨(C8_map_per_element (0 : Nat) (fun x => x * 2) [100, 200, 300]).2.1 1 (by decide),
   (C8_map_per_element (0 : Nat) (fun x => x * 2) [100, 200, 300]).2.2.2
     (fun _ => 1) (by decide)⟩

/-- Claim C6 (confirmed): the channel-code mapping sends every code of its
domain to the matching positive-input-select encoding (0-7 to the analog
inputs, 8 to VDD on non-9160 variants, 13 to VDDH/5 on variants with the
divider); outside the domain the task engine panics (`none`) while the
one-shot path returns an error, and the panic is unreachable for every
code a `Channel` implementation of the crate can produce. -/
theorem C6_channel_mapping :
    (∀ is9160 hasDiv ch, ch ≤ 7 →
      pselpForTask is9160 hasDiv ch = some (Pselp.analogInput ch) ∧
      pselpForRead is9160 hasDiv ch = Except.ok (Pselp.analogInput ch)) ∧
    (∀ hasDiv, pselpForTask false hasDiv 8 = some Pselp.vdd ∧
      pselpForRead false hasDiv 8 = Except.ok Pselp.vdd) ∧
    (∀ is9160, pselpForTask is9160 true 13 = some Pselp.vddhdiv5 ∧
      pselpForRead is9160 true 13 = Except.ok Pselp.vddhdiv5) ∧
    (∀ is9160 hasDiv ch, chDomain is9160 hasDiv ch = false →
      pselpForTask is9160 hasDiv ch = none ∧
      pselpForRead is9160 hasDiv ch = Except.error ()) ∧
    (∀ is9160 hasDiv, ∀ ch ∈ crateChannelCodes is9160 hasDiv,
      (pselpForTask is9160 hasDiv ch).isSome = true) := by
  refine ⟨?_, ?_, ?_, ?_, ?_⟩
  · intro b1 b2 ch h
    interval_cases ch <;> exact ⟨rfl, rfl⟩
  · intro b2; exact ⟨rfl, rfl⟩
  · intro b1; exact ⟨rfl, rfl⟩
  · intro b1 b2 ch h
    by_cases hch : ch < 14
    · interval_cases ch <;> revert h <;> cases b1 <;> cases b2 <;> decide
    · obtain ⟨n, rfl⟩ : ∃ n, ch = n + 14 := ⟨ch - 14, by omega⟩
      exact ⟨rfl, rfl⟩
  · intro b1 b2
    cases b1 <;> cases b2 <;> decide

/-- Witness for C6 at concrete codes: 3 maps to analog input 3; 9 is
outside the domain (panic in the task engine, error in the one-shot
path); the crate-provided code 13 on a 52840-like variant is accepted. -/
theorem C6_channel_mapping_witness :
    pselpForTask false true 3 = some (Pselp.analogInput 3) ∧
    pselpForTask true false 9 = none ∧
    pselpForRead true false 9 = Except.error () ∧
    (pselpForTask false true 13).isSome = true :=
  ⟨(C6_channel_mapping.1 false true 3 (by decide)).1,
   (C6_channel_mapping.2.2.2.1 true false 9 (by decide)).1,
   (C6_channel_mapping.2.2.2.1 true false 9 (by decide)).2,
   C6_channel_mapping.2.2.2.2 false true 13 (by decide)⟩

/-- Claim C10 (confirmed): every call of `complete_sample` - which never
reads the completion event - writes the START and SAMPLE task registers
and resets the END event, all strictly before the sample buffer is copied
out through the mapping function (the trace below lists its hardware
interactions in order, the buffer copy last), and its result is the
mapping function applied to each buffer element. -/
theorem C10_complete_sample_frame {T : Type} (dflt : T) (callback : Nat → T)
    (buffer : List Nat) :
    (complete_sample dflt callback buffer).1 =
      [Ev.fence, Ev.wreg Reg.tasks_start 1, Ev.wreg Reg.tasks_sample 1,
       Ev.wreg Reg.events_end 0, Ev.wreg Reg.intenclr 1, Ev.bufRead] ∧
    (∀ e ∈ (complete_sample dflt callback buffer).1, e.isEndRead = false) ∧
    (complete_sample dflt callback buffer).2 = buffer.map callback := by
  refine ⟨rfl, ?_, read_buffer_eq_map dflt callback buffer⟩
  intro e he
  have h1 : (complete_sample dflt callback buffer).1 =
      [Ev.fence, Ev.wreg Reg.tasks_start 1, Ev.wreg Reg.tasks_sample 1,
       Ev.wreg Reg.events_end 0, Ev.wreg Reg.intenclr 1, Ev.bufRead] := rfl
  rw [h1] at he
  fin_cases he <;> rfl

/-- Claim C3 (confirmed): `sample_blocking` polls the END event with the
counter ceiling of 10,000 (`count > 10_000` after a failed poll ⇒ give
up, i.e. exactly 10001 polls that all read 0): it returns `none` exactly
when the event is not observed before the counter exceeds the ceiling; it
returns `some` with the mapped results whenever the event is observed at
or before the bound; and on the timeout path nothing after the trigger
writes is touched - in particular the END event is not reset - the trace
after the fixed setup prefix being nothing but the reads of END. -/
theorem C3_sample_blocking_bounded_poll {T : Type} (dflt : T) (callback : Nat → T)
    (rv : Nat → Nat) (buffer : List Nat) :
    ((sample_blocking dflt callback rv buffer).2 = none ↔ ∀ j < 10001, rv j = 0) ∧
    (∀ n, n < 10001 → (∀ j < n, rv j = 0) → rv n ≠ 0 →
      (sample_blocking dflt callback rv buffer).2 = some (read_buffer dflt callback buffer)) ∧
    ((sample_blocking dflt callback rv buffer).2 = none →
      ∃ reads, (sample_blocking dflt callback rv buffer).1 =
        [Ev.wreg Reg.events_end 0, Ev.wreg Reg.result_ptr 0,
         Ev.wreg Reg.result_maxcnt buffer.length, Ev.wreg Reg.enable 1, Ev.fence,
         Ev.wreg Reg.tasks_start 1, Ev.wreg Reg.tasks_sample 1,
         Ev.wreg Reg.inten 0, Ev.wreg Reg.intenset 0, Ev.fence,
         Ev.wreg Reg.tasks_start 1, Ev.wreg Reg.tasks_sample 1] ++ reads ∧
        ∀ e ∈ reads, ∃ v, e = Ev.rreg Reg.events_end v) := by
  refine ⟨⟨?_, ?_⟩, ?_, ?_⟩
  · intro hnone j hj
    rcases hpoll : pollLoop Reg.events_end rv 0 10001 with ⟨ltr, res⟩
    cases res with
    | none => exact pollLoop_timeout _ _ 10001 0 ltr hpoll j (Nat.zero_le _) (by omega)
    | some n =>
      have hs : (sample_blocking dflt callback rv buffer).2 =
          some (read_buffer dflt callback buffer) := by
        unfold sample_blocking
        rw [hpoll]
      rw [hs] at hnone
      cases hnone
  · intro hall
    have h2 := pollLoop_timeout_of_allzero Reg.events_end rv 10001 0
      (fun j _ hj => hall j (by omega))
    unfold sample_blocking
    rw [h2]
  · intro n hn hz hs
    have hp2 := pollLoop_success_of_first Reg.events_end rv n hs 10001 0 (Nat.zero_le _)
      (fun j _ hj => hz j hj) (by omega)
    rcases hpoll : pollLoop Reg.events_end rv 0 10001 with ⟨ltr, res⟩
    rw [hpoll] at hp2
    cases hp2
    unfold sample_blocking
    rw [hpoll]
  · intro hnone
    rcases hpoll : pollLoop Reg.events_end rv 0 10001 with ⟨ltr, res⟩
    cases res with
    | some n =>
      have hs : (sample_blocking dflt callback rv buffer).2 =
          some (read_buffer dflt callback buffer) := by
        unfold sample_blocking
        rw [hpoll]
      rw [hs] at hnone
      cases hnone
    | none =>
      refine ⟨ltr, ?_, ?_⟩
      · unfold sample_blocking
        rw [hpoll]
      · intro e he
        have hmem : e ∈ (pollLoop Reg.events_end rv 0 10001).1 := by rw [hpoll]; exact he
        obtain ⟨j, hej⟩ := pollLoop_trace_reads Reg.events_end rv 10001 0 e hmem
        exact ⟨rv j, hej⟩

/-- Witness for C3 at a concrete input: the END event first observed on
the fourth poll yields the mapped results. -/
theorem C3_sample_blocking_bounded_poll_witness :
    (sample_blocking (0 : Nat) (fun x => x * 2) (fun i => if i = 3 then 1 else 0)
        [100, 200, 300]).2 =
      some (read_buffer (0 : Nat) (fun x => x * 2) [100, 200, 300]) :=
  (C3_sample_blocking_bounded_poll (0 : Nat) (fun x => x * 2)
      (fun i => if i = 3 then 1 else 0) [100, 200, 300]).2.1 3 (by decide)
    (by decide) (by decide)

/-- Claim C5 (confirmed): for a valid channel, `read_channel` programs the
DMA target (pointer, maxcnt = 1), triggers START and SAMPLE, busy-waits
with no timeout - the event may first be observed at any poll index n and
the read still succeeds, while if the event never fires the call never
returns for any fuel - verifies exactly one element was transferred,
clears the END event before returning, and returns `Ok` with the signed
raw code the hardware wrote; moreover any successful return forces
`amount = 1` and yields exactly the hardware-written value. -/
theorem C5_read_channel_one_shot (is9160 hasDiv : Bool) (ch : Nat) (p : Pselp)
    (rv : Nat → Nat) (val : Int)
    (hp : pselpForRead is9160 hasDiv ch = Except.ok p) :
    (∀ n, (∀ j, j < n → rv j = 0) → rv n ≠ 0 →
      ∃ tr, read_channel is9160 hasDiv ch rv 1 val (n + 1) = some (tr, Except.ok val) ∧
        oneShotObligations p tr) ∧
    ((∀ i, rv i = 0) → ∀ fuel, read_channel is9160 hasDiv ch rv 1 val fuel = none) ∧
    (∀ amount fuel tr2 v2,
      read_channel is9160 hasDiv ch rv amount val fuel = some (tr2, Except.ok v2) →
      amount = 1 ∧ v2 = val) := by
  refine ⟨?_, ?_, ?_⟩
  · intro n hz hs
    have hp2 := pollLoop_success_of_first Reg.events_end rv n hs (n + 1) 0 (Nat.zero_le _)
      (fun j _ hj => hz j hj) (by omega)
    rcases hpoll : pollLoop Reg.events_end rv 0 (n + 1) with ⟨ltr, res⟩
    rw [hpoll] at hp2
    cases hp2
    obtain ⟨hne, _, _, _, hmem⟩ := pollLoop_success Reg.events_end rv (n + 1) 0 ltr n hpoll
    have heq : read_channel is9160 hasDiv ch rv 1 val (n + 1) =
        some ([Ev.wpselp 0 p, Ev.wreg Reg.result_ptr 0, Ev.wreg Reg.result_maxcnt 1,
               Ev.fence, Ev.wreg Reg.tasks_start 1, Ev.wreg Reg.tasks_sample 1] ++ ltr
                ++ [Ev.wreg Reg.events_end 0, Ev.rreg Reg.result_amount 1,
                    Ev.fence, Ev.bufRead],
              Except.ok val) := by
      unfold read_channel
      rw [hp, hpoll]
      simp
    refine ⟨_, heq, ?_, ?_, ?_, ?_, ?_, ⟨rv n, hne, ?_⟩, ?_, ?_⟩ <;>
      simp [List.mem_append, hmem]
  · intro hall fuel
    have h2 := pollLoop_timeout_of_allzero Reg.events_end rv fuel 0 (fun j _ _ => hall j)
    unfold read_channel
    rw [hp, h2]
  · intro amount fuel tr2 v2 h
    unfold read_channel at h
    rw [hp] at h
    rcases hpoll : pollLoop Reg.events_end rv 0 fuel with ⟨ltr, res⟩
    rw [hpoll] at h
    cases res with
    | none => cases h
    | some k =>
      by_cases ha : amount = 1
      · subst ha
        simp at h
        exact ⟨rfl, h.2.symm⟩
      · simp [ha] at h

/-- Witness for C5 at a concrete input: channel 2, END first observed on
the sixth poll, hardware wrote 1234; the read returns `Ok 1234` with all
the obligations of a successful one-shot cycle. -/
theorem C5_read_channel_one_shot_witness :
    ∃ tr, read_channel false false 2 (fun i => if i = 5 then 1 else 0) 1 1234 (5 + 1) =
        some (tr, Except.ok 1234) ∧ oneShotObligations (Pselp.analogInput 2) tr :=
  (C5_read_channel_one_shot false false 2 (Pselp.analogInput 2)
      (fun i => if i = 5 then 1 else 0) 1234 rfl).1 5 (by decide) (by decide)

/-- The per-channel setup loop of the task-engine constructor performs
only writes, never a read of any hardware register. -/
theorem taskChanSetup_no_reads (b1 b2 : Bool) (cfg : SaadcConfig) :
    ∀ chans idx evs, taskChanSetup b1 b2 cfg chans idx = some evs →
      ∀ e ∈ evs, e.isRead = false := by
  intro chans
  induction chans with
  | nil =>
    intro idx evs h e he
    cases h
    simp at he
  | cons ch rest ih =>
    intro idx evs h e he
    rcases hps : pselpForTask b1 b2 ch with _ | p
    · simp only [taskChanSetup, hps] at h
      cases h
    · simp only [taskChanSetup, hps] at h
      rcases hrec : taskChanSetup b1 b2 cfg rest (idx + 1) with _ | evs'
      · rw [hrec] at h
        cases h
      · rw [hrec] at h
        cases h
        rcases List.mem_cons.mp he with rfl | he1
        · rfl
        rcases List.mem_cons.mp he1 with rfl | he2
        · rfl
        rcases List.mem_cons.mp he2 with rfl | he3
        · rfl
        · exact ih (idx + 1) evs' hrec e he3

/-- Claim C2 (amended, original corrected): the single-channel engine
constructor `Saadc::new`, after clearing the calibration-done event and
triggering the calibrate-offset task, does not return until the
calibration-done event is observed set - an unbounded busy-wait with no
timeout (if the event never fires it never returns; if the event first
fires on any poll n it returns) - but the task-engine constructor
`SaadcTask::new` does not wait at all: its wait is commented out in the
source, it clears the event, triggers the task, performs no hardware read
whatsoever, and returns. -/
theorem C2_calibration_wait (cfg : SaadcConfig) (rv : Nat → Nat) :
    (∀ fuel tr, SaadcNew cfg rv fuel = some tr →
      ∃ v, v ≠ 0 ∧ Ev.rreg Reg.events_calibratedone v ∈ tr) ∧
    ((∀ i, rv i = 0) → ∀ fuel, SaadcNew cfg rv fuel = none) ∧
    (∀ n, (∀ j, j < n → rv j = 0) → rv n ≠ 0 → SaadcNew cfg rv (n + 1) ≠ none) ∧
    (∀ is9160 hasDiv channels buffer tr buf,
      SaadcTaskNew is9160 hasDiv cfg channels buffer = some (tr, buf) →
      (∀ e ∈ tr, e.isRead = false) ∧
      Ev.wreg Reg.events_calibratedone 0 ∈ tr ∧
      Ev.wreg Reg.tasks_calibrateoffset 1 ∈ tr) := by
  refine ⟨?_, ?_, ?_, ?_⟩
  · intro fuel tr h
    rcases hpoll : pollLoop Reg.events_calibratedone rv 0 fuel with ⟨ltr, res⟩
    cases res with
    | none =>
      unfold SaadcNew at h
      rw [hpoll] at h
      cases h
    | some n =>
      unfold SaadcNew at h
      rw [hpoll] at h
      cases h
      obtain ⟨hne, _, _, _, hmem⟩ :=
        pollLoop_success Reg.events_calibratedone rv fuel 0 ltr n hpoll
      exact ⟨rv n, hne, List.mem_append.mpr (Or.inr hmem)⟩
  · intro hall fuel
    have h2 := pollLoop_timeout_of_allzero Reg.events_calibratedone rv fuel 0
      (fun j _ _ => hall j)
    unfold SaadcNew
    rw [h2]
  · intro n hz hs
    have hp2 := pollLoop_success_of_first Reg.events_calibratedone rv n hs (n + 1) 0
      (Nat.zero_le _) (fun j _ hj => hz j hj) (by omega)
    rcases hpoll : pollLoop Reg.events_calibratedone rv 0 (n + 1) with ⟨ltr, res⟩
    rw [hpoll] at hp2
    cases hp2
    unfold SaadcNew
    rw [hpoll]
    simp
  · intro is9160 hasDiv channels buffer tr buf h
    rcases hcs : taskChanSetup is9160 hasDiv cfg channels 0 with _ | chanEvs
    · unfold SaadcTaskNew at h
      rw [hcs] at h
      cases h
    · unfold SaadcTaskNew at h
      rw [hcs] at h
      cases h
      refine ⟨?_, ?_, ?_⟩
      · intro e he
        rcases List.mem_append.mp he with h1 | h2
        · rcases List.mem_append.mp h1 with h3 | h4
          · fin_cases h3 <;> rfl
          · exact taskChanSetup_no_reads is9160 hasDiv cfg channels 0 chanEvs hcs e h4
        · fin_cases h2 <;> rfl
      · exact List.mem_append.mpr (Or.inr (by simp))
      · exact List.mem_append.mpr (Or.inr (by simp))

/-- Witness for C2 at a concrete input: with calibration-done first
observed on the third poll, `Saadc::new` returns and its trace contains
the successful observation; with it never observed, fuel 5 does not make
it return; and a task-engine construction over one channel returns with a
read-free trace containing the event clear and the task trigger. -/
theorem C2_calibration_wait_witness :
    (∃ v, v ≠ 0 ∧ Ev.rreg Reg.events_calibratedone v ∈
      (SaadcNew SaadcConfig.default (fun i => if i = 2 then 1 else 0) 3).getD []) ∧
    SaadcNew SaadcConfig.default (fun i => if i = 2 then 1 else 0) 3 ≠ none := by
  have h := C2_calibration_wait SaadcConfig.default (fun i => if i = 2 then 1 else 0)
  refine ⟨?_, h.2.2.1 2 (by decide) (by decide)⟩
  obtain ⟨v, hv, hmem⟩ := h.1 3
    ((SaadcNew SaadcConfig.default (fun i => if i = 2 then 1 else 0) 3).getD []) (by rfl)
  exact ⟨v, hv, hmem⟩

/-- Counterexample to C2 as stated: the task-engine constructor returns
an engine while its entire trace contains no read of any register - in
particular the calibration-done event is never observed before it
returns. -/
theorem C2_taskNew_returns_without_wait :
    SaadcTaskNew false false SaadcConfig.default [0] [0] =
      some ([Ev.wresolution Resolution._14BIT, Ev.woversample Oversample.OVER8X,
             Ev.wreg Reg.samplerate 0,
             Ev.wchconfig 0 Reference.VDD1_4 Gain.GAIN1_4 Time._20US Resistor.BYPASS,
             Ev.wpselp 0 (Pselp.analogInput 0), Ev.wreg (Reg.ch_pseln 0) 0,
             Ev.wreg Reg.enable 1, Ev.wreg Reg.events_calibratedone 0,
             Ev.wreg Reg.tasks_calibrateoffset 1, Ev.wreg Reg.inten 1,
             Ev.wreg Reg.intenset 1],
            [0]) ∧
    ((SaadcTaskNew false false SaadcConfig.default [0] [0]).getD ([], [])).1.all
      (fun e => !e.isCalDoneRead) = true := by
  exact ⟨rfl, by decide⟩

/-- A trace that splits as setup-writes ++ poll-reads ++ tail is
completion-guarded as soon as the first two parts contain no buffer read,
some read before the tail observed END set, and the tail passes the
checker with the flag already set. -/
theorem copyGuarded_of_parts (preL ltr postL : List Ev)
    (hpre : ∀ e ∈ preL, e.isBufRead = false)
    (hltr : ∀ e ∈ ltr, e.isBufRead = false)
    (hany : (preL ++ ltr).any Ev.isEndSetRead = true)
    (hpost : copyChk true postL = true) :
    copyGuarded (preL ++ ltr ++ postL) := by
  unfold copyGuarded
  rw [copyChk_append, copyChk_append, copyChk_of_no_bufRead _ _ hpre,
    copyChk_of_no_bufRead _ _ hltr, hany]
  simpa using hpost

/-- A trace with no buffer read is trivially completion-guarded. -/
theorem copyGuarded_of_no_bufRead (tr : List Ev) (h : ∀ e ∈ tr, e.isBufRead = false) :
    copyGuarded tr :=
  copyChk_of_no_bufRead false tr h

/-- Claim C1 (amended, original corrected): the bounded-poll sample and
the blocking one-shot read copy the buffer out only after a read of the
END event observed it set (and the timeout path never reads the buffer at
all), but the completion query `complete_sample` copies the buffer out
without reading the END event at all (see the counterexample). -/
theorem C1_copy_after_completion {T : Type} (dflt : T) (callback : Nat → T)
    (rv : Nat → Nat) (buffer : List Nat) :
    (∀ res, (sample_blocking dflt callback rv buffer).2 = some res →
      copyGuarded (sample_blocking dflt callback rv buffer).1) ∧
    ((sample_blocking dflt callback rv buffer).2 = none →
      Ev.bufRead ∉ (sample_blocking dflt callback rv buffer).1) ∧
    (∀ is9160 hasDiv ch amount val fuel tr r,
      read_channel is9160 hasDiv ch rv amount val fuel = some (tr, r) →
      copyGuarded tr) := by
  refine ⟨?_, ?_, ?_⟩
  · intro res hres
    rcases hpoll : pollLoop Reg.events_end rv 0 10001 with ⟨ltr, pres⟩
    cases pres with
    | none =>
      unfold sample_blocking at hres
      rw [hpoll] at hres
      cases hres
    | some n =>
      have htr : (sample_blocking dflt callback rv buffer).1 =
          [Ev.wreg Reg.events_end 0, Ev.wreg Reg.result_ptr 0,
           Ev.wreg Reg.result_maxcnt buffer.length, Ev.wreg Reg.enable 1, Ev.fence,
           Ev.wreg Reg.tasks_start 1, Ev.wreg Reg.tasks_sample 1,
           Ev.wreg Reg.inten 0, Ev.wreg Reg.intenset 0, Ev.fence,
           Ev.wreg Reg.tasks_start 1, Ev.wreg Reg.tasks_sample 1] ++ ltr
            ++ [Ev.wreg Reg.events_end 0, Ev.fence, Ev.bufRead] := by
        unfold sample_blocking
        rw [hpoll]
      rw [htr]
      obtain ⟨hne, _, _, _, hmem⟩ := pollLoop_success Reg.events_end rv 10001 0 ltr n hpoll
      refine copyGuarded_of_parts _ _ _ (by intro e he; fin_cases he <;> rfl) ?_ ?_ (by decide)
      · intro e he
        obtain ⟨j, rfl⟩ := pollLoop_trace_reads Reg.events_end rv 10001 0 e (by rw [hpoll]; exact he)
        rfl
      · refine List.any_eq_true.mpr ⟨Ev.rreg Reg.events_end (rv n),
          List.mem_append.mpr (Or.inr hmem), by simp [hne]⟩
  · intro hnone hbuf
    rcases hpoll : pollLoop Reg.events_end rv 0 10001 with ⟨ltr, pres⟩
    cases pres with
    | some n =>
      have hs : (sample_blocking dflt callback rv buffer).2 =
          some (read_buffer dflt callback buffer) := by
        unfold sample_blocking
        rw [hpoll]
      rw [hs] at hnone
      cases hnone
    | none =>
      have htr : (sample_blocking dflt callback rv buffer).1 =
          [Ev.wreg Reg.events_end 0, Ev.wreg Reg.result_ptr 0,
           Ev.wreg Reg.result_maxcnt buffer.length, Ev.wreg Reg.enable 1, Ev.fence,
           Ev.wreg Reg.tasks_start 1, Ev.wreg Reg.tasks_sample 1,
           Ev.wreg Reg.inten 0, Ev.wreg Reg.intenset 0, Ev.fence,
           Ev.wreg Reg.tasks_start 1, Ev.wreg Reg.tasks_sample 1] ++ ltr := by
        unfold sample_blocking
        rw [hpoll]
      rw [htr] at hbuf
      rcases List.mem_append.mp hbuf with h1 | h2
      · simp at h1
      · obtain ⟨j, hj⟩ := pollLoop_trace_reads Reg.events_end rv 10001 0 Ev.bufRead
          (by rw [hpoll]; exact h2)
        cases hj
  · intro is9160 hasDiv ch amount val fuel tr r h
    rcases hps : pselpForRead is9160 hasDiv ch with _ | p
    · simp only [read_channel, hps] at h
      cases h
      exact copyGuarded_of_no_bufRead [] (by intro e he; cases he)
    · simp only [read_channel, hps] at h
      rcases hpoll : pollLoop Reg.events_end rv 0 fuel with ⟨ltr, pres⟩
      rw [hpoll] at h
      cases pres with
      | none => cases h
      | some n =>
        obtain ⟨hne, _, _, _, hmem⟩ := pollLoop_success Reg.events_end rv fuel 0 ltr n hpoll
        have hreads : ∀ e ∈ ltr, e.isBufRead = false := by
          intro e he
          obtain ⟨j, rfl⟩ := pollLoop_trace_reads Reg.events_end rv fuel 0 e
            (by rw [hpoll]; exact he)
          rfl
        by_cases ha : amount = 1
        · subst ha
          simp only [if_pos, Option.some.injEq, Prod.mk.injEq] at h
          obtain ⟨rfl, rfl⟩ := h
          refine copyGuarded_of_parts
            [Ev.wpselp 0 p, Ev.wreg Reg.result_ptr 0, Ev.wreg Reg.result_maxcnt 1, Ev.fence,
             Ev.wreg Reg.tasks_start 1, Ev.wreg Reg.tasks_sample 1] ltr
            [Ev.wreg Reg.events_end 0, Ev.rreg Reg.result_amount 1, Ev.fence, Ev.bufRead]
            (by intro e he; fin_cases he <;> rfl) hreads ?_ (by decide)
          exact List.any_eq_true.mpr ⟨Ev.rreg Reg.events_end (rv n),
            List.mem_append.mpr (Or.inr hmem), by simp [hne]⟩
        · simp only [if_neg ha, Option.some.injEq, Prod.mk.injEq] at h
          obtain ⟨rfl, rfl⟩ := h
          refine copyGuarded_of_parts
            [Ev.wpselp 0 p, Ev.wreg Reg.result_ptr 0, Ev.wreg Reg.result_maxcnt 1, Ev.fence,
             Ev.wreg Reg.tasks_start 1, Ev.wreg Reg.tasks_sample 1] ltr
            [Ev.wreg Reg.events_end 0, Ev.rreg Reg.result_amount amount]
            (by intro e he; fin_cases he <;> rfl) hreads ?_ rfl
          exact List.any_eq_true.mpr ⟨Ev.rreg Reg.events_end (rv n),
            List.mem_append.mpr (Or.inr hmem), by simp [hne]⟩

/-- Witness for C1 at concrete inputs: a bounded-poll sample whose first
END poll observes the event, and a one-shot read completing on the first
poll, both have completion-guarded traces. -/
theorem C1_copy_after_completion_witness :
    copyGuarded (sample_blocking (0 : Nat) (fun x => x) (fun _ => 1) [5]).1 ∧
    copyGuarded ((read_channel false false 0 (fun _ => 1) 1 42 1).getD
      ([], Except.error ())).1 := by
  refine ⟨(C1_copy_after_completion (0 : Nat) (fun x => x) (fun _ => 1) [5]).1
    (read_buffer (0 : Nat) (fun x => x) [5]) rfl, ?_⟩
  exact (C1_copy_after_completion (0 : Nat) (fun x => x) (fun _ => 1) [5]).2.2
    false false 0 1 42 1 _ _ rfl

/-- Counterexample to C1 as stated: `complete_sample` - the
completion/ready query - hands back the buffer contents although its
trace contains a buffer read with no read of the END event anywhere: the
completion guard evaluates to false on its trace. -/
theorem C1_complete_sample_copies_unguarded :
    (complete_sample (0 : Nat) (fun x => x) [7]).2 = [7] ∧
    copyChk false (complete_sample (0 : Nat) (fun x => x) [7]).1 = false ∧
    (complete_sample (0 : Nat) (fun x => x) [7]).1.all (fun e => !e.isEndRead) = true :=
  ⟨rfl, by decide, by decide⟩

/-- Claim C4 (amended, original corrected): after completion the one-shot
read validates that `RESULT.AMOUNT` equals 1 and on a mismatch surfaces a
failure without a buffer read; but the task-engine sample-cycle paths
perform no transferred-count validation at all - neither
`sample_blocking` nor `complete_sample` ever reads `RESULT.AMOUNT`. -/
theorem C4_amount_validation (rv : Nat → Nat) :
    (∀ is9160 hasDiv ch p amount val fuel tr r,
      pselpForRead is9160 hasDiv ch = Except.ok p → amount ≠ 1 →
      read_channel is9160 hasDiv ch rv amount val fuel = some (tr, r) →
      r = Except.error () ∧ Ev.bufRead ∉ tr) ∧
    (∀ {T : Type} (dflt : T) (callback : Nat → T) (buffer : List Nat),
      ∀ e ∈ (sample_blocking dflt callback rv buffer).1, e.isAmountRead = false) ∧
    (∀ {T : Type} (dflt : T) (callback : Nat → T) (buffer : List Nat),
      ∀ e ∈ (complete_sample dflt callback buffer).1, e.isAmountRead = false) := by
  refine ⟨?_, ?_, ?_⟩
  · intro is9160 hasDiv ch p amount val fuel tr r hps ha h
    simp only [read_channel, hps] at h
    rcases hpoll : pollLoop Reg.events_end rv 0 fuel with ⟨ltr, pres⟩
    rw [hpoll] at h
    cases pres with
    | none => cases h
    | some n =>
      simp only [if_neg ha, Option.some.injEq, Prod.mk.injEq] at h
      obtain ⟨rfl, rfl⟩ := h
      refine ⟨rfl, ?_⟩
      intro hb
      rcases List.mem_append.mp hb with h1 | h2
      · rcases List.mem_append.mp h1 with h3 | h4
        · simp at h3
        · obtain ⟨j, hj⟩ := pollLoop_trace_reads Reg.events_end rv fuel 0 Ev.bufRead
            (by rw [hpoll]; exact h4)
          cases hj
      · simp at h2
  · intro T dflt callback buffer e he
    rcases hpoll : pollLoop Reg.events_end rv 0 10001 with ⟨ltr, pres⟩
    have hltr : ∀ x ∈ ltr, Ev.isAmountRead x = false := by
      intro x hx
      obtain ⟨j, rfl⟩ := pollLoop_trace_reads Reg.events_end rv 10001 0 x
        (by rw [hpoll]; exact hx)
      rfl
    cases pres with
    | none =>
      have htr : (sample_blocking dflt callback rv buffer).1 =
          [Ev.wreg Reg.events_end 0, Ev.wreg Reg.result_ptr 0,
           Ev.wreg Reg.result_maxcnt buffer.length, Ev.wreg Reg.enable 1, Ev.fence,
           Ev.wreg Reg.tasks_start 1, Ev.wreg Reg.tasks_sample 1,
           Ev.wreg Reg.inten 0, Ev.wreg Reg.intenset 0, Ev.fence,
           Ev.wreg Reg.tasks_start 1, Ev.wreg Reg.tasks_sample 1] ++ ltr := by
        unfold sample_blocking
        rw [hpoll]
      rw [htr] at he
      rcases List.mem_append.mp he with h1 | h2
      · fin_cases h1 <;> rfl
      · exact hltr e h2
    | some n =>
      have htr : (sample_blocking dflt callback rv buffer).1 =
          [Ev.wreg Reg.events_end 0, Ev.wreg Reg.result_ptr 0,
           Ev.wreg Reg.result_maxcnt buffer.length, Ev.wreg Reg.enable 1, Ev.fence,
           Ev.wreg Reg.tasks_start 1, Ev.wreg Reg.tasks_sample 1,
           Ev.wreg Reg.inten 0, Ev.wreg Reg.intenset 0, Ev.fence,
           Ev.wreg Reg.tasks_start 1, Ev.wreg Reg.tasks_sample 1] ++ ltr
            ++ [Ev.wreg Reg.events_end 0, Ev.fence, Ev.bufRead] := by
        unfold sample_blocking
        rw [hpoll]
      rw [htr] at he
      rcases List.mem_append.mp he with h1 | h2
      · rcases List.mem_append.mp h1 with h3 | h4
        · fin_cases h3 <;> rfl
        · exact hltr e h4
      · fin_cases h2 <;> rfl
  · intro T dflt callback buffer e he
    have h1 : (complete_sample dflt callback buffer).1 =
        [Ev.fence, Ev.wreg Reg.tasks_start 1, Ev.wreg Reg.tasks_sample 1,
         Ev.wreg Reg.events_end 0, Ev.wreg Reg.intenclr 1, Ev.bufRead] := rfl
    rw [h1] at he
    fin_cases he <;> rfl

/-- Witness for C4 at a concrete input: a one-shot read whose simulated
transfer count is 3 surfaces `Err` and its trace has no buffer read. -/
theorem C4_amount_validation_witness :
    ((read_channel false false 0 (fun _ => 1) 3 42 1).getD ([], Except.ok 0)).2 =
      Except.error () ∧
    Ev.bufRead ∉ ((read_channel false false 0 (fun _ => 1) 3 42 1).getD
      ([], Except.ok 0)).1 :=
  (C4_amount_validation (fun _ => 1)).1 false false 0 (Pselp.analogInput 0) 3 42 1
    _ _ rfl (by decide) rfl

/-- Counterexample to C4 as stated: `sample_blocking` is a sample-cycle
operation that returns the raw buffer contents as valid data while its
trace contains no read of `RESULT.AMOUNT` whatsoever: there is no
transferred-count validation on that path. -/
theorem C4_sample_blocking_skips_validation :
    (sample_blocking (0 : Nat) (fun x => x) (fun _ => 1) [100, 200]).2 = some [100, 200] ∧
    (sample_blocking (0 : Nat) (fun x => x) (fun _ => 1) [100, 200]).1.all
      (fun e => !e.isAmountRead) = true :=
  ⟨rfl, by decide⟩

/-- Claim C7 (amended, original corrected): in every cycle-starting
operation that programs the DMA - `start_sample`, `prepare_sample`,
`sample_blocking` and `read_channel` - the result pointer and maxcnt
writes happen before an ordering fence and every start/sample trigger
happens only after that fence; but `complete_sample` also triggers the
start and sample tasks, and it does so without writing the DMA pointer or
maxcnt in that operation at all (see the counterexample). -/
theorem C7_dma_programmed_before_trigger (buffer : List Nat) :
    fencedSetup (start_sample buffer) ∧
    fencedSetup (prepare_sample buffer) ∧
    (∀ {T : Type} (dflt : T) (callback : Nat → T) (rv : Nat → Nat),
      fencedSetup (sample_blocking dflt callback rv buffer).1) ∧
    (∀ is9160 hasDiv ch p rv amount val fuel tr r,
      pselpForRead is9160 hasDiv ch = Except.ok p →
      read_channel is9160 hasDiv ch rv amount val fuel = some (tr, r) →
      fencedSetup tr) := by
  refine ⟨?_, ?_, ?_, ?_⟩
  · refine ⟨[Ev.wreg Reg.events_end 0, Ev.wreg Reg.result_ptr 0,
             Ev.wreg Reg.result_maxcnt buffer.length, Ev.wreg Reg.enable 1],
            [Ev.wreg Reg.tasks_start 1, Ev.wreg Reg.tasks_sample 1,
             Ev.wreg Reg.inten 1, Ev.wreg Reg.intenset 1], rfl, ?_, ?_, ?_, ?_⟩
    · exact List.any_eq_true.mpr ⟨Ev.wreg Reg.result_ptr 0, by simp, rfl⟩
    · exact List.any_eq_true.mpr ⟨Ev.wreg Reg.result_maxcnt buffer.length, by simp, rfl⟩
    · intro e he
      fin_cases he <;> rfl
    · exact ⟨Ev.wreg Reg.tasks_start 1, by simp, rfl⟩
  · refine ⟨[Ev.wreg Reg.events_end 0, Ev.wreg Reg.result_ptr 0,
             Ev.wreg Reg.result_maxcnt buffer.length, Ev.wreg Reg.enable 1],
            [Ev.wreg Reg.tasks_start 1], rfl, ?_, ?_, ?_, ?_⟩
    · exact List.any_eq_true.mpr ⟨Ev.wreg Reg.result_ptr 0, by simp, rfl⟩
    · exact List.any_eq_true.mpr ⟨Ev.wreg Reg.result_maxcnt buffer.length, by simp, rfl⟩
    · intro e he
      fin_cases he <;> rfl
    · exact ⟨Ev.wreg Reg.tasks_start 1, by simp, rfl⟩
  · intro T dflt callback rv
    rcases hpoll : pollLoop Reg.events_end rv 0 10001 with ⟨ltr, pres⟩
    cases pres with
    | none =>
      have htr : (sample_blocking dflt callback rv buffer).1 =
          [Ev.wreg Reg.events_end 0, Ev.wreg Reg.result_ptr 0,
           Ev.wreg Reg.result_maxcnt buffer.length, Ev.wreg Reg.enable 1, Ev.fence,
           Ev.wreg Reg.tasks_start 1, Ev.wreg Reg.tasks_sample 1,
           Ev.wreg Reg.inten 0, Ev.wreg Reg.intenset 0, Ev.fence,
           Ev.wreg Reg.tasks_start 1, Ev.wreg Reg.tasks_sample 1] ++ ltr := by
        unfold sample_blocking
        rw [hpoll]
      refine ⟨[Ev.wreg Reg.events_end 0, Ev.wreg Reg.result_ptr 0,
               Ev.wreg Reg.result_maxcnt buffer.length, Ev.wreg Reg.enable 1],
              [Ev.wreg Reg.tasks_start 1, Ev.wreg Reg.tasks_sample 1,
               Ev.wreg Reg.inten 0, Ev.wreg Reg.intenset 0, Ev.fence,
               Ev.wreg Reg.tasks_start 1, Ev.wreg Reg.tasks_sample 1] ++ ltr,
              by rw [htr]; rfl, ?_, ?_, ?_, ?_⟩
      · exact List.any_eq_true.mpr ⟨Ev.wreg Reg.result_ptr 0, by simp, rfl⟩
      · exact List.any_eq_true.mpr ⟨Ev.wreg Reg.result_maxcnt buffer.length, by simp, rfl⟩
      · intro e he
        fin_cases he <;> rfl
      · exact ⟨Ev.wreg Reg.tasks_start 1, List.mem_append.mpr (Or.inl (by simp)), rfl⟩
    | some n =>
      have htr : (sample_blocking dflt callback rv buffer).1 =
          [Ev.wreg Reg.events_end 0, Ev.wreg Reg.result_ptr 0,
           Ev.wreg Reg.result_maxcnt buffer.length, Ev.wreg Reg.enable 1, Ev.fence,
           Ev.wreg Reg.tasks_start 1, Ev.wreg Reg.tasks_sample 1,
           Ev.wreg Reg.inten 0, Ev.wreg Reg.intenset 0, Ev.fence,
           Ev.wreg Reg.tasks_start 1, Ev.wreg Reg.tasks_sample 1] ++ ltr
            ++ [Ev.wreg Reg.events_end 0, Ev.fence, Ev.bufRead] := by
        unfold sample_blocking
        rw [hpoll]
      refine ⟨[Ev.wreg Reg.events_end 0, Ev.wreg Reg.result_ptr 0,
               Ev.wreg Reg.result_maxcnt buffer.length, Ev.wreg Reg.enable 1],
              [Ev.wreg Reg.tasks_start 1, Ev.wreg Reg.tasks_sample 1,
               Ev.wreg Reg.inten 0, Ev.wreg Reg.intenset 0, Ev.fence,
               Ev.wreg Reg.tasks_start 1, Ev.wreg Reg.tasks_sample 1] ++ ltr
                ++ [Ev.wreg Reg.events_end 0, Ev.fence, Ev.bufRead],
              by rw [htr]; rfl, ?_, ?_, ?_, ?_⟩
      · exact List.any_eq_true.mpr ⟨Ev.wreg Reg.result_ptr 0, by simp, rfl⟩
      · exact List.any_eq_true.mpr ⟨Ev.wreg Reg.result_maxcnt buffer.length, by simp, rfl⟩
      · intro e he
        fin_cases he <;> rfl
      · exact ⟨Ev.wreg Reg.tasks_start 1,
          List.mem_append.mpr (Or.inl (List.mem_append.mpr (Or.inl (by simp)))), rfl⟩
  · intro is9160 hasDiv ch p rv amount val fuel tr r hps h
    simp only [read_channel, hps] at h
    rcases hpoll : pollLoop Reg.events_end rv 0 fuel with ⟨ltr, pres⟩
    rw [hpoll] at h
    cases pres with
    | none => cases h
    | some n =>
      by_cases ha : amount = 1
      · subst ha
        simp only [if_pos, Option.some.injEq, Prod.mk.injEq] at h
        obtain ⟨rfl, rfl⟩ := h
        refine ⟨[Ev.wpselp 0 p, Ev.wreg Reg.result_ptr 0, Ev.wreg Reg.result_maxcnt 1],
                [Ev.wreg Reg.tasks_start 1, Ev.wreg Reg.tasks_sample 1] ++ ltr
                  ++ [Ev.wreg Reg.events_end 0, Ev.rreg Reg.result_amount 1,
                      Ev.fence, Ev.bufRead],
                rfl, ?_, ?_, ?_, ?_⟩
        · exact List.any_eq_true.mpr ⟨Ev.wreg Reg.result_ptr 0, by simp, rfl⟩
        · exact List.any_eq_true.mpr ⟨Ev.wreg Reg.result_maxcnt 1, by simp, rfl⟩
        · intro e he
          fin_cases he <;> rfl
        · exact ⟨Ev.wreg Reg.tasks_start 1,
            List.mem_append.mpr (Or.inl (List.mem_append.mpr (Or.inl (by simp)))), rfl⟩
      · simp only [if_neg ha, Option.some.injEq, Prod.mk.injEq] at h
        obtain ⟨rfl, rfl⟩ := h
        refine ⟨[Ev.wpselp 0 p, Ev.wreg Reg.result_ptr 0, Ev.wreg Reg.result_maxcnt 1],
                [Ev.wreg Reg.tasks_start 1, Ev.wreg Reg.tasks_sample 1] ++ ltr
                  ++ [Ev.wreg Reg.events_end 0, Ev.rreg Reg.result_amount amount],
                rfl, ?_, ?_, ?_, ?_⟩
        · exact List.any_eq_true.mpr ⟨Ev.wreg Reg.result_ptr 0, by simp, rfl⟩
        · exact List.any_eq_true.mpr ⟨Ev.wreg Reg.result_maxcnt 1, by simp, rfl⟩
        · intro e he
          fin_cases he <;> rfl
        · exact ⟨Ev.wreg Reg.tasks_start 1,
            List.mem_append.mpr (Or.inl (List.mem_append.mpr (Or.inl (by simp)))), rfl⟩

/-- Witness for C7 at concrete inputs: the fence-ordering property holds
of a `start_sample` trace and of the trace of a completed one-shot
read. -/
theorem C7_dma_programmed_before_trigger_witness :
    fencedSetup (start_sample [0]) ∧
    fencedSetup ((read_channel false false 0 (fun _ => 1) 1 42 1).getD
      ([], Except.error ())).1 := by
  refine ⟨(C7_dma_programmed_before_trigger [0]).1, ?_⟩
  exact (C7_dma_programmed_before_trigger [0]).2.2.2 false false 0 (Pselp.analogInput 0)
    (fun _ => 1) 1 42 1 _ _ rfl rfl

/-- Counterexample to C7 as stated: `complete_sample` triggers a new
conversion (it writes the start and sample task registers) with no write
of the DMA result pointer or maxcnt anywhere in its trace. -/
theorem C7_complete_sample_triggers_unprogrammed :
    (complete_sample (0 : Nat) (fun x => x) [0]).1.any Ev.isTrigger = true ∧
    (complete_sample (0 : Nat) (fun x => x) [0]).1.any Ev.isPtrWrite = false ∧
    (complete_sample (0 : Nat) (fun x => x) [0]).1.any Ev.isMaxcntWrite = false :=
  ⟨by decide, by decide, by decide⟩

end NrfSaadc
